import Mathlib

/-!
# NoteManager server model

A shallow embedding of the NoteManager backend: the JSON store accessor
(`src/jsonTools.js`) and the user/category route handlers of `src/server.js`.

Conventions of the embedding:
* Query and body string parameters are modelled as `String`, with `""` playing
  the role of the JS falsy "missing or empty" value tested by `!x`.
* The persisted JSON document is a `Doc` with the two top-level collections;
  `none` models the key being absent or not an array (the `Array.isArray`
  checks in the handlers).
* A handler response is an `ApiOut`: either a 200 `success:true` payload or a
  `res.status(s).json` failure with its message.
* bcryptjs is an external library; its `hashSync`/`compareSync` pair is
  modelled by its contract: comparison succeeds exactly when the plaintext is
  the password the hash was derived from (ideal salted one-way hash).
* JS numbers are modelled as ideal integers; double overflow and precision
  loss above 2^53 are not modelled.
-/

namespace NoteManager

/-- Model of a bcrypt hash as produced by bcryptjs `hashSync(passwd, cost)`.
The `plain` field records which password the hash verifies against; it models
the one-way hash semantically, not its byte representation. -/
structure BcryptHash where
  plain : String
  cost : Nat
deriving DecidableEq

/-- bcryptjs `hashSync`. -/
def bcryptHashSync (passwd : String) (cost : Nat) : BcryptHash :=
  { plain := passwd, cost := cost }

/-- bcryptjs `compareSync`: succeeds exactly when `passwd` is the password the
hash was derived from. -/
def bcryptCompareSync (passwd : String) (h : BcryptHash) : Bool :=
  passwd == h.plain

/-- A record of the `user` collection: `{ username, passwd }`, `passwd` being a
bcrypt hash. -/
structure User where
  username : String
  passwd : BcryptHash
deriving DecidableEq

/-- A record of the `category` collection: `{ id, name, color, user }`. -/
structure Category where
  id : Int
  name : String
  color : String
  user : String
deriving DecidableEq

/-- The persisted JSON document, with top-level keys `user` and `category`.
`none` models the key being absent (or holding a non-array value). -/
structure Doc where
  user : Option (List User) := none
  category : Option (List Category) := none
deriving DecidableEq

/-- The empty document returned by `loadJson` when the file is absent. -/
def emptyDoc : Doc := {}

/-- Outcome of `fs.readFileSync` on the store file: absent (ENOENT), failed
with some other I/O error, or raw text. -/
inductive ReadResult where
  | enoent
  | ioError (msg : String)
  | ok (raw : String)
deriving DecidableEq

/-- `loadJson` from `src/jsonTools.js`: read the file and `JSON.parse` it.
An ENOENT failure yields the empty document; any other read error is
rethrown; a parse failure (the parser is a parameter, `JSON.parse` belonging
to the JS runtime) is likewise rethrown. -/
def loadJson (parse : String → Except String Doc) :
    ReadResult → Except String Doc
  | ReadResult.enoent => Except.ok emptyDoc
  | ReadResult.ioError m => Except.error m
  | ReadResult.ok raw => parse raw

/-- `saveJson` from `src/jsonTools.js`: serialize the document and overwrite
the file in full. -/
def saveJson (serialize : Doc → String) (d : Doc) : ReadResult :=
  ReadResult.ok (serialize d)

/-- `jsonTools` from `src/jsonTools.js`: load, apply the mutator, save, and
return the result. A throw inside the mutator (modelled as `Except.error`)
propagates before `saveJson` runs, so the file keeps its previous contents.
The result pairs the file state after the call with the outcome. -/
def jsonTools (parse : String → Except String Doc) (serialize : Doc → String)
    (file : ReadResult) (mutator : Doc → Except String (Doc × α)) :
    ReadResult × Except String (Doc × α) :=
  match loadJson parse file with
  | Except.error e => (file, Except.error e)
  | Except.ok d =>
    match mutator d with
    | Except.error e => (file, Except.error e)
    | Except.ok (d1, a) => (saveJson serialize d1, Except.ok (d1, a))

/-- Document-level view of a `jsonTools` call, used by the route handlers
below: they operate on the loaded document; on a mutator throw the store keeps
its previous contents and the error propagates. -/
def mutateDoc (disk : Doc) (fn : Doc → Except String (Doc × α)) :
    Doc × Except String α :=
  match fn disk with
  | Except.ok (d1, a) => (d1, Except.ok a)
  | Except.error e => (disk, Except.error e)

/-- An HTTP response from a handler: `ok` is a 200 `success:true` response
with its payload; `err s m` is `res.status(s).json` with `success:false` and
`error: m`. -/
inductive ApiOut (α : Type) where
  | ok (payload : α)
  | err (status : Nat) (msg : String)
deriving DecidableEq

/-- Replace the first element satisfying `p` (the JS handlers mutate the
record returned by `Array.prototype.find` in place). -/
def updateFirst (p : α → Bool) (f : α → α) : List α → List α
  | [] => []
  | x :: xs => if p x then f x :: xs else x :: updateFirst p f xs

/-- Mutator passed to `jsonTools` by POST /user/create. -/
def userCreateFn (username passwd : String) (data : Doc) :
    Except String (Doc × Unit) :=
  let users := data.user.getD []
  if users.any (fun u => u.username == username) then
    Except.error "User already exists"
  else
    Except.ok ({ data with user := some (users ++
      [{ username := username, passwd := bcryptHashSync passwd 10 }]) },
      Unit.unit)

/-- POST /user/create. -/
def userCreate (disk : Doc) (username passwd : String) : Doc × ApiOut String :=
  if username == "" || passwd == "" then
    (disk, ApiOut.err 400 "username and passwd are required")
  else
    match mutateDoc disk (userCreateFn username passwd) with
    | (d1, Except.ok _) => (d1, ApiOut.ok username)
    | (d1, Except.error e) => (d1, ApiOut.err 400 e)

/-- GET /user/get (load-only). The success payload is the username; the hash
is never exposed. -/
def userGet (disk : Doc) (username : String) : ApiOut String :=
  if username == "" then ApiOut.err 400 "username is required"
  else
    match (disk.user.getD []).find? (fun u => u.username == username) with
    | none => ApiOut.err 404 "User not found"
    | some u => ApiOut.ok u.username

/-- Mutator passed to `jsonTools` by POST /user/update. -/
def userUpdateFn (username oldPasswd newPasswd : String) (data : Doc) :
    Except String (Doc × Unit) :=
  let users := data.user.getD []
  match users.find? (fun u => u.username == username) with
  | none => Except.error "User not found"
  | some u =>
    if bcryptCompareSync oldPasswd u.passwd then
      Except.ok ({ data with user := some (updateFirst
        (fun v => v.username == username)
        (fun v => { v with passwd := bcryptHashSync newPasswd 10 }) users) },
        Unit.unit)
    else
      Except.error "Old password is incorrect"

/-- POST /user/update. -/
def userUpdate (disk : Doc) (username oldPasswd newPasswd : String) :
    Doc × ApiOut String :=
  if username == "" || oldPasswd == "" || newPasswd == "" then
    (disk, ApiOut.err 400 "username, oldPasswd and newPasswd are required")
  else
    match mutateDoc disk (userUpdateFn username oldPasswd newPasswd) with
    | (d1, Except.ok _) => (d1, ApiOut.ok username)
    | (d1, Except.error e) => (d1, ApiOut.err 400 e)

/-- Mutator passed to `jsonTools` by DELETE /user/delete. -/
def userDeleteFn (username : String) (data : Doc) :
    Except String (Doc × Unit) :=
  let users := data.user.getD []
  match users.findIdx? (fun u => u.username == username) with
  | none => Except.error "User not found"
  | some i => Except.ok ({ data with user := some (users.eraseIdx i) },
      Unit.unit)

/-- DELETE /user/delete. -/
def userDelete (disk : Doc) (username : String) : Doc × ApiOut String :=
  if username == "" then (disk, ApiOut.err 400 "username is required")
  else
    match mutateDoc disk (userDeleteFn username) with
    | (d1, Except.ok _) => (d1, ApiOut.ok username)
    | (d1, Except.error e) => (d1, ApiOut.err 400 e)

/-- GET /user/verify (load-only). The `user` key must be an array, the user
present, and the password must verify against the stored hash. -/
def userVerify (disk : Doc) (username passwd : String) : ApiOut String :=
  if username == "" || passwd == "" then
    ApiOut.err 400 "username and passwd are required"
  else
    match disk.user with
    | none => ApiOut.err 404 "No users found"
    | some users =>
      match users.find? (fun u => u.username == username) with
      | none => ApiOut.err 404 "User not found"
      | some u =>
        if bcryptCompareSync passwd u.passwd then ApiOut.ok username
        else ApiOut.err 401 "Password incorrect"

/-- The character class [0-9A-Fa-f] of the color regex. -/
def isHexDigit (c : Char) : Bool :=
  (('0' ≤ c) && (c ≤ '9')) || (('A' ≤ c) && (c ≤ 'F')) ||
    (('a' ≤ c) && (c ≤ 'f'))

/-- `isValidHex` from `src/server.js`: tests `String(hex)` against the regex
`^#[0-9A-Fa-f]\x7b6\x7d$` (a `#` followed by exactly six hex digits). -/
def isValidHex (s : String) : Bool :=
  match s.data with
  | '#' :: rest => (rest.length == 6) && rest.all isHexDigit
  | _ => false

/-- Mutator passed to `jsonTools` by POST /category/create: the new id is
`max(existing ids, default 0) + 1`, recomputed from the current contents. -/
def categoryCreateFn (name color owner : String) (data : Doc) :
    Except String (Doc × Int) :=
  let cats := data.category.getD []
  let categoryId : Int := cats.foldl (fun maxId c => max maxId c.id) 0 + 1
  Except.ok ({ data with category := some (cats ++
    [{ id := categoryId, name := name, color := color, user := owner }]) },
    categoryId)

/-- POST /category/create. -/
def categoryCreate (disk : Doc) (name color owner : String) :
    Doc × ApiOut Int :=
  if name == "" then (disk, ApiOut.err 400 "Category name is required")
  else if !isValidHex color then
    (disk, ApiOut.err 400 "Not a valid hex color")
  else if owner == "" then (disk, ApiOut.err 400 "User is required")
  else
    match mutateDoc disk (categoryCreateFn name color owner) with
    | (d1, Except.ok cid) => (d1, ApiOut.ok cid)
    | (d1, Except.error e) => (d1, ApiOut.err 400 e)

/-- GET /category/list (load-only): filter the collection by owner. -/
def categoryList (disk : Doc) (owner : String) : ApiOut (List Category) :=
  if owner == "" then ApiOut.err 400 "User is required"
  else ApiOut.ok ((disk.category.getD []).filter (fun c => c.user == owner))

/-- Whitespace skipped by JS `parseInt`. -/
def isJsSpace (c : Char) : Bool :=
  (c == ' ') || (c == '\t') || (c == '\n') || (c == '\r')

/-- `Number.parseInt(s, 10)` over ideal integers: skip leading whitespace,
read an optional sign, then the maximal run of decimal digits; the result is
NaN (here `none`) exactly when that run is empty. -/
def parseIntBase10 (s : String) : Option Int :=
  let trimmed := s.data.dropWhile isJsSpace
  let signed : Bool × List Char :=
    match trimmed with
    | '-' :: rest => (true, rest)
    | '+' :: rest => (false, rest)
    | cs => (false, cs)
  let ds := signed.2.takeWhile Char.isDigit
  if ds.isEmpty then none
  else
    let n : Nat := ds.foldl (fun acc c => 10 * acc + (c.toNat - 48)) 0
    some (if signed.1 then -(n : Int) else (n : Int))

/-- GET /category/get (load-only): the id must parse as an integer, then a
category matching both the parsed id and the owner must exist. -/
def categoryGet (disk : Doc) (id owner : String) : ApiOut Category :=
  if id == "" then ApiOut.err 400 "Category id is required"
  else if owner == "" then ApiOut.err 400 "User is required"
  else
    match parseIntBase10 id with
    | none => ApiOut.err 400 "id must be an integer"
    | some idNum =>
      match (disk.category.getD []).find?
          (fun c => (c.id == idNum) && (c.user == owner)) with
      | none => ApiOut.err 404 "Category not found"
      | some c => ApiOut.ok c

/-- Mutator passed to `jsonTools` by POST /category/update. -/
def categoryUpdateFn (id : Int) (name color owner : String) (data : Doc) :
    Except String (Doc × Unit) :=
  let cats := data.category.getD []
  match cats.find? (fun c => (c.id == id) && (c.user == owner)) with
  | none => Except.error "Category not found"
  | some _ =>
    Except.ok ({ data with category := some (updateFirst
      (fun c => (c.id == id) && (c.user == owner))
      (fun c => { c with name := name, color := color }) cats) },
      Unit.unit)

/-- POST /category/update. The body id is modelled as a number (the JS loose
comparison `cat.id == data.id` also coerces numeric strings); a body id of 0
is falsy in JS and rejected as missing. -/
def categoryUpdate (disk : Doc) (id : Int) (name color owner : String) :
    Doc × ApiOut Int :=
  if id == 0 then (disk, ApiOut.err 400 "Category id is required")
  else if name == "" then (disk, ApiOut.err 400 "Category name is required")
  else if !isValidHex color then
    (disk, ApiOut.err 400 "Not a valid hex color")
  else if owner == "" then (disk, ApiOut.err 400 "User is required")
  else
    match mutateDoc disk (categoryUpdateFn id name color owner) with
    | (d1, Except.ok _) => (d1, ApiOut.ok id)
    | (d1, Except.error e) => (d1, ApiOut.err 400 e)

/-- Mutator passed to `jsonTools` by DELETE /category/delete: `parseInt` runs
inside the mutation, so a malformed id throws there and surfaces through the
handler's catch block. -/
def categoryDeleteFn (id owner : String) (data : Doc) :
    Except String (Doc × Int) :=
  let cats := data.category.getD []
  match parseIntBase10 id with
  | none => Except.error "id must be an integer"
  | some idNum =>
    match cats.findIdx? (fun c => (c.id == idNum) && (c.user == owner)) with
    | none => Except.error "Category not found"
    | some i =>
      Except.ok ({ data with category := some (cats.eraseIdx i) }, idNum)

/-- DELETE /category/delete. -/
def categoryDelete (disk : Doc) (id owner : String) : Doc × ApiOut Int :=
  if id == "" then (disk, ApiOut.err 400 "Category id is required")
  else if owner == "" then (disk, ApiOut.err 400 "User is required")
  else
    match mutateDoc disk (categoryDeleteFn id owner) with
    | (d1, Except.ok n) => (d1, ApiOut.ok n)
    | (d1, Except.error e) => (d1, ApiOut.err 400 e)

/-- The color contract as the spec words it: a string matching the regex
`^#[0-9A-Fa-f]\x7b6\x7d$`, read off as: total length 7, first character `#`,
and the remaining six characters all in the class [0-9A-Fa-f]. Stated
independently of `isValidHex` so the implementation can be compared with the
spec sentence. -/
def matchesHexColorSpec (s : String) : Bool :=
  (s.data.length == 7) && (s.data.take 1 == ['#']) &&
    (s.data.drop 1).all isHexDigit

/-- A store whose only category has id 1, owned by alice (used as concrete
input in several statements). -/
def aliceCat1 : Category :=
  { id := 1, name := "a", color := "#000000", user := "alice" }

def oneCatDoc : Doc := { category := some [aliceCat1] }

/-- A store with both collections present but empty (used as concrete input
in several statements). -/
def twoEmptyDoc : Doc := { user := some [], category := some [] }

/-! ## Helper lemmas -/

theorem le_foldl_max_init (l : List Category) (a : Int) :
    a ≤ l.foldl (fun m x => max m x.id) a := by
  induction l generalizing a with
  | nil => exact le_refl a
  | cons x xs ih =>
    rw [List.foldl_cons]
    exact le_trans (le_max_left a x.id) (ih (max a x.id))

theorem id_le_foldl_max (c : Category) :
    ∀ (l : List Category) (a : Int), c ∈ l →
      c.id ≤ l.foldl (fun m x => max m x.id) a
  | [], _, h => absurd h (List.not_mem_nil c)
  | x :: xs, a, h => by
    rw [List.foldl_cons]
    rcases List.mem_cons.mp h with h1 | h1
    · subst h1
      exact le_trans (le_max_right a c.id) (le_foldl_max_init xs (max a c.id))
    · exact id_le_foldl_max c xs (max a x.id) h1

theorem mutateDoc_error {α : Type} (disk : Doc)
    (fn : Doc → Except String (Doc × α)) (e : String)
    (h : fn disk = Except.error e) :
    mutateDoc disk fn = (disk, Except.error e) := by
  simp [mutateDoc, h]

theorem mutateDoc_ok {α : Type} (disk d1 : Doc)
    (fn : Doc → Except String (Doc × α)) (a : α)
    (h : fn disk = Except.ok (d1, a)) :
    mutateDoc disk fn = (d1, Except.ok a) := by
  simp [mutateDoc, h]

theorem isValidHex_eq_spec (s : String) :
    isValidHex s = matchesHexColorSpec s := by
  unfold isValidHex
  split
  · rename_i rest heq
    simp [matchesHexColorSpec, heq]
  · rename_i hne
    cases hl : s.data with
    | nil => simp [matchesHexColorSpec, hl]
    | cons c cs =>
      have hc : c ≠ '#' := by
        intro h
        exact hne cs (by rw [hl, h])
      simp [matchesHexColorSpec, hl, hc]

theorem mutateDoc_fst_category {α : Type} (disk : Doc)
    (fn : Doc → Except String (Doc × α))
    (hok : ∀ d1 a, fn disk = Except.ok (d1, a) →
      d1.category = disk.category) :
    (mutateDoc disk fn).1.category = disk.category := by
  cases hfn : fn disk with
  | error e => rw [mutateDoc_error _ _ _ hfn]
  | ok pa =>
    obtain ⟨d1, a⟩ := pa
    rw [mutateDoc_ok _ _ _ _ hfn]
    exact hok d1 a hfn

theorem mutateDoc_fst_user {α : Type} (disk : Doc)
    (fn : Doc → Except String (Doc × α))
    (hok : ∀ d1 a, fn disk = Except.ok (d1, a) → d1.user = disk.user) :
    (mutateDoc disk fn).1.user = disk.user := by
  cases hfn : fn disk with
  | error e => rw [mutateDoc_error _ _ _ hfn]
  | ok pa =>
    obtain ⟨d1, a⟩ := pa
    rw [mutateDoc_ok _ _ _ _ hfn]
    exact hok d1 a hfn

theorem userCreateFn_ok_category (u p : String) (d d1 : Doc) (a : Unit)
    (h : userCreateFn u p d = Except.ok (d1, a)) :
    d1.category = d.category := by
  simp only [userCreateFn] at h
  split at h
  · simp at h
  · simp only [Except.ok.injEq, Prod.mk.injEq] at h
    rw [← h.1]

theorem userUpdateFn_ok_category (u po pn : String) (d d1 : Doc) (a : Unit)
    (h : userUpdateFn u po pn d = Except.ok (d1, a)) :
    d1.category = d.category := by
  simp only [userUpdateFn] at h
  split at h
  · simp at h
  · split at h
    · simp only [Except.ok.injEq, Prod.mk.injEq] at h
      rw [← h.1]
    · simp at h

theorem userDeleteFn_ok_category (u : String) (d d1 : Doc) (a : Unit)
    (h : userDeleteFn u d = Except.ok (d1, a)) :
    d1.category = d.category := by
  simp only [userDeleteFn] at h
  split at h
  · simp at h
  · simp only [Except.ok.injEq, Prod.mk.injEq] at h
    rw [← h.1]

theorem categoryCreateFn_ok_user (nm col ow : String) (d d1 : Doc) (a : Int)
    (h : categoryCreateFn nm col ow d = Except.ok (d1, a)) :
    d1.user = d.user := by
  simp only [categoryCreateFn] at h
  simp only [Except.ok.injEq, Prod.mk.injEq] at h
  rw [← h.1]

theorem categoryUpdateFn_ok_user (idN : Int) (nm col ow : String)
    (d d1 : Doc) (a : Unit)
    (h : categoryUpdateFn idN nm col ow d = Except.ok (d1, a)) :
    d1.user = d.user := by
  simp only [categoryUpdateFn] at h
  split at h
  · simp at h
  · simp only [Except.ok.injEq, Prod.mk.injEq] at h
    rw [← h.1]

theorem categoryDeleteFn_ok_user (idS ow : String) (d d1 : Doc) (a : Int)
    (h : categoryDeleteFn idS ow d = Except.ok (d1, a)) :
    d1.user = d.user := by
  simp only [categoryDeleteFn] at h
  split at h
  · simp at h
  · split at h
    · simp at h
    · simp only [Except.ok.injEq, Prod.mk.injEq] at h
      rw [← h.1]

theorem userCreate_fst (disk : Doc) (u p : String) :
    (userCreate disk u p).1 = disk ∨
    (userCreate disk u p).1 = (mutateDoc disk (userCreateFn u p)).1 := by
  unfold userCreate
  split
  · exact Or.inl rfl
  · right
    rcases hm : mutateDoc disk (userCreateFn u p) with ⟨d1, r⟩
    cases r <;> rfl

theorem userUpdate_fst (disk : Doc) (u po pn : String) :
    (userUpdate disk u po pn).1 = disk ∨
    (userUpdate disk u po pn).1 =
      (mutateDoc disk (userUpdateFn u po pn)).1 := by
  unfold userUpdate
  split
  · exact Or.inl rfl
  · right
    rcases hm : mutateDoc disk (userUpdateFn u po pn) with ⟨d1, r⟩
    cases r <;> rfl

theorem userDelete_fst (disk : Doc) (u : String) :
    (userDelete disk u).1 = disk ∨
    (userDelete disk u).1 = (mutateDoc disk (userDeleteFn u)).1 := by
  unfold userDelete
  split
  · exact Or.inl rfl
  · right
    rcases hm : mutateDoc disk (userDeleteFn u) with ⟨d1, r⟩
    cases r <;> rfl

theorem categoryCreate_fst (disk : Doc) (nm col ow : String) :
    (categoryCreate disk nm col ow).1 = disk ∨
    (categoryCreate disk nm col ow).1 =
      (mutateDoc disk (categoryCreateFn nm col ow)).1 := by
  unfold categoryCreate
  split
  · exact Or.inl rfl
  · split
    · exact Or.inl rfl
    · split
      · exact Or.inl rfl
      · right
        rcases hm : mutateDoc disk (categoryCreateFn nm col ow) with ⟨d1, r⟩
        cases r <;> rfl

theorem categoryUpdate_fst (disk : Doc) (idN : Int) (nm col ow : String) :
    (categoryUpdate disk idN nm col ow).1 = disk ∨
    (categoryUpdate disk idN nm col ow).1 =
      (mutateDoc disk (categoryUpdateFn idN nm col ow)).1 := by
  unfold categoryUpdate
  split
  · exact Or.inl rfl
  · split
    · exact Or.inl rfl
    · split
      · exact Or.inl rfl
      · split
        · exact Or.inl rfl
        · right
          rcases hm : mutateDoc disk (categoryUpdateFn idN nm col ow)
            with ⟨d1, r⟩
          cases r <;> rfl

theorem categoryDelete_fst (disk : Doc) (idS ow : String) :
    (categoryDelete disk idS ow).1 = disk ∨
    (categoryDelete disk idS ow).1 =
      (mutateDoc disk (categoryDeleteFn idS ow)).1 := by
  unfold categoryDelete
  split
  · exact Or.inl rfl
  · split
    · exact Or.inl rfl
    · right
      rcases hm : mutateDoc disk (categoryDeleteFn idS ow) with ⟨d1, r⟩
      cases r <;> rfl

/-! ## Claims -/

/-- C8: `loadJson` on an absent file (ENOENT) returns the empty document
rather than failing; any other read error, and any parse error, propagates to
the caller instead of being swallowed. -/
theorem loadJson_missing_file_and_errors
    (parse : String → Except String Doc) (m raw e : String)
    (hraw : parse raw = Except.error e) :
    loadJson parse ReadResult.enoent = Except.ok emptyDoc ∧
    loadJson parse (ReadResult.ioError m) = Except.error m ∧
    loadJson parse (ReadResult.ok raw) = Except.error e :=
  ⟨rfl, rfl, hraw⟩

/-- Witness for C8 at a concrete parser, raw text, and error. -/
theorem loadJson_missing_file_and_errors_inst :
    loadJson (fun _ => Except.error "Unexpected token")
        ReadResult.enoent = Except.ok emptyDoc ∧
    loadJson (fun _ => Except.error "Unexpected token")
        (ReadResult.ioError "EACCES") = Except.error "EACCES" ∧
    loadJson (fun _ => Except.error "Unexpected token")
        (ReadResult.ok "not json") = Except.error "Unexpected token" :=
  loadJson_missing_file_and_errors (fun _ => Except.error "Unexpected token")
    "EACCES" "not json" "Unexpected token" rfl

/-- C3: if the mutator passed to `jsonTools` throws a domain error, the file
keeps exactly its previous contents (no save occurs) and the error
propagates; at the request boundary (here DELETE /user/delete) it is rendered
as a `success:false` response carrying the error message, with the store
unchanged. -/
theorem jsonTools_aborts_without_save {α : Type}
    (parse : String → Except String Doc) (serialize : Doc → String)
    (file : ReadResult) (mutator : Doc → Except String (Doc × α))
    (d disk : Doc) (e : String) (u : String)
    (hload : loadJson parse file = Except.ok d)
    (hmut : mutator d = Except.error e)
    (hu : u ≠ "")
    (hdel : userDeleteFn u disk = Except.error e) :
    jsonTools parse serialize file mutator = (file, Except.error e) ∧
    userDelete disk u = (disk, ApiOut.err 400 e) := by
  constructor
  · simp [jsonTools, hload, hmut]
  · have hu2 : (u == "") = false := by simp [hu]
    simp [userDelete, hu2, mutateDoc_error disk (userDeleteFn u) e hdel]

/-- Witness for C3: deleting an absent user on a store read from disk leaves
the file untouched and yields the domain error. -/
theorem jsonTools_aborts_without_save_inst :
    jsonTools (fun _ => Except.ok { user := some [] }) (fun _ => "")
        (ReadResult.ok "x") (userDeleteFn "bob") =
      (ReadResult.ok "x", Except.error "User not found") ∧
    userDelete { user := some [] } "bob" =
      ({ user := some [] }, ApiOut.err 400 "User not found") :=
  jsonTools_aborts_without_save (fun _ => Except.ok { user := some [] })
    (fun _ => "") (ReadResult.ok "x") (userDeleteFn "bob")
    { user := some [] } { user := some [] } "User not found" "bob"
    rfl rfl (by decide) rfl

/-- C1 counterexample: in a store whose only category has id 1, deleting it
and creating another yields id 1 again, not 2 — the id counter is recomputed
from the current contents, so ids are reused after the maximum is deleted. -/
theorem categoryId_reuse_counterexample :
    (categoryCreate (categoryDelete oneCatDoc "1" "alice").1
        "b" "#000000" "alice").2 = ApiOut.ok 1 ∧
    (categoryCreate (categoryDelete oneCatDoc "1" "alice").1
        "b" "#000000" "alice").2 ≠ ApiOut.ok 2 := by
  decide

/-- C2 counterexample: DELETE /user/delete on an absent username responds with
status 400, not 404 — the "User not found" error is thrown inside the store
mutation and the handler's catch block renders every such error with
status 400. -/
theorem userDelete_notFound_is_400 :
    (userDelete { user := some [] } "bob").2 =
      ApiOut.err 400 "User not found" ∧
    (userDelete { user := some [] } "bob").2 ≠
      ApiOut.err 404 "User not found" := by
  decide

/-- C1 (amended): every successful category Create assigns
`id = max(ids currently present, default 0) + 1`: the new id is strictly
greater than every id currently present in the store and the record is
appended — but the counter is recomputed from current contents, so after the
maximum id is deleted an id can be reused (see the counterexample). -/
theorem categoryCreate_id_exceeds_current (disk : Doc)
    (name color owner : String)
    (hn : name ≠ "") (hc : isValidHex color = true) (ho : owner ≠ "") :
    (categoryCreate disk name color owner).2 =
      ApiOut.ok ((disk.category.getD []).foldl
        (fun m x => max m x.id) 0 + 1) ∧
    (∀ c ∈ disk.category.getD [],
      c.id < (disk.category.getD []).foldl (fun m x => max m x.id) 0 + 1) ∧
    (categoryCreate disk name color owner).1.category =
      some (disk.category.getD [] ++
        [⟨(disk.category.getD []).foldl (fun m x => max m x.id) 0 + 1,
          name, color, owner⟩]) := by
  have hn2 : (name == "") = false := by simp [hn]
  have ho2 : (owner == "") = false := by simp [ho]
  refine ⟨?_, ?_, ?_⟩
  · simp [categoryCreate, hn2, hc, ho2, mutateDoc, categoryCreateFn]
  · intro c hcmem
    exact lt_of_le_of_lt (id_le_foldl_max c _ 0 hcmem) (lt_add_one _)
  · simp [categoryCreate, hn2, hc, ho2, mutateDoc, categoryCreateFn]

/-- Witness for the amended C1 at a one-category store. -/
theorem categoryCreate_id_exceeds_current_inst :
    (categoryCreate oneCatDoc "b" "#abcdef" "alice").2 =
      ApiOut.ok ((oneCatDoc.category.getD []).foldl
        (fun m x => max m x.id) 0 + 1) ∧
    (∀ c ∈ oneCatDoc.category.getD [],
      c.id < (oneCatDoc.category.getD []).foldl
        (fun m x => max m x.id) 0 + 1) ∧
    (categoryCreate oneCatDoc "b" "#abcdef" "alice").1.category =
      some (oneCatDoc.category.getD [] ++
        [⟨(oneCatDoc.category.getD []).foldl (fun m x => max m x.id) 0 + 1,
          "b", "#abcdef", "alice"⟩]) :=
  categoryCreate_id_exceeds_current oneCatDoc "b" "#abcdef" "alice"
    (by decide) (by decide) (by decide)

/-- C4: after a successful Create(u, p) on a store not containing u,
Verify(u, p) succeeds, and Verify(u, p2) for p2 different from p fails with
Unauthorized (HTTP 401). -/
theorem verify_after_create (disk : Doc) (u p p2 : String)
    (hu : u ≠ "") (hp : p ≠ "") (hp2 : p2 ≠ "") (hne : p2 ≠ p)
    (habsent : ∀ v ∈ disk.user.getD [], v.username ≠ u) :
    (userCreate disk u p).2 = ApiOut.ok u ∧
    userVerify (userCreate disk u p).1 u p = ApiOut.ok u ∧
    userVerify (userCreate disk u p).1 u p2 =
      ApiOut.err 401 "Password incorrect" := by
  have hu2 : (u == "") = false := by simp [hu]
  have hpb : (p == "") = false := by simp [hp]
  have hp2b : (p2 == "") = false := by simp [hp2]
  have hany : (disk.user.getD []).any (fun v => v.username == u) = false := by
    rw [List.any_eq_false]
    intro x hx
    simpa using habsent x hx
  have hfn : userCreateFn u p disk = Except.ok
      ({ disk with user := some (disk.user.getD [] ++
        [{ username := u, passwd := bcryptHashSync p 10 }]) },
        Unit.unit) := by
    simp [userCreateFn, hany]
  have hres : userCreate disk u p =
      ({ disk with user := some (disk.user.getD [] ++
        [{ username := u, passwd := bcryptHashSync p 10 }]) },
        ApiOut.ok u) := by
    simp [userCreate, hu2, hpb, mutateDoc_ok _ _ _ _ hfn]
  have h1 : (disk.user.getD []).find? (fun v => v.username == u) = none :=
    List.find?_eq_none.mpr (fun x hx => by simpa using habsent x hx)
  rw [hres]
  refine ⟨rfl, ?_, ?_⟩
  · simp [userVerify, hu2, hpb, h1, bcryptCompareSync, bcryptHashSync]
  · simp [userVerify, hu2, hp2b, h1, bcryptCompareSync, bcryptHashSync, hne]

/-- Witness for C4 on the empty store. -/
theorem verify_after_create_inst :
    (userCreate emptyDoc "alice" "pw").2 = ApiOut.ok "alice" ∧
    userVerify (userCreate emptyDoc "alice" "pw").1 "alice" "pw" =
      ApiOut.ok "alice" ∧
    userVerify (userCreate emptyDoc "alice" "pw").1 "alice" "wrong" =
      ApiOut.err 401 "Password incorrect" :=
  verify_after_create emptyDoc "alice" "pw" "wrong"
    (by decide) (by decide) (by decide) (by decide) (by simp [emptyDoc])

/-- C6: after a successful Create(u, p), a second Create(u, p2) fails with
AlreadyExists (status 400, "User already exists") and leaves the store
unchanged. -/
theorem userCreate_twice_already_exists (disk : Doc) (u p p2 : String)
    (hu : u ≠ "") (hp : p ≠ "") (hp2 : p2 ≠ "")
    (habsent : ∀ v ∈ disk.user.getD [], v.username ≠ u) :
    (userCreate disk u p).2 = ApiOut.ok u ∧
    userCreate (userCreate disk u p).1 u p2 =
      ((userCreate disk u p).1, ApiOut.err 400 "User already exists") := by
  have hu2 : (u == "") = false := by simp [hu]
  have hpb : (p == "") = false := by simp [hp]
  have hp2b : (p2 == "") = false := by simp [hp2]
  have hany : (disk.user.getD []).any (fun v => v.username == u) = false := by
    rw [List.any_eq_false]
    intro x hx
    simpa using habsent x hx
  have hfn : userCreateFn u p disk = Except.ok
      ({ disk with user := some (disk.user.getD [] ++
        [{ username := u, passwd := bcryptHashSync p 10 }]) },
        Unit.unit) := by
    simp [userCreateFn, hany]
  have hres : userCreate disk u p =
      ({ disk with user := some (disk.user.getD [] ++
        [{ username := u, passwd := bcryptHashSync p 10 }]) },
        ApiOut.ok u) := by
    simp [userCreate, hu2, hpb, mutateDoc_ok _ _ _ _ hfn]
  rw [hres]
  refine ⟨rfl, ?_⟩
  have hfn2 : userCreateFn u p2
      { disk with user := some (disk.user.getD [] ++
        [{ username := u, passwd := bcryptHashSync p 10 }]) } =
      Except.error "User already exists" := by
    simp [userCreateFn, List.any_append]
  simp [userCreate, hu2, hp2b, mutateDoc_error _ _ _ hfn2]

/-- Witness for C6 on the empty store. -/
theorem userCreate_twice_already_exists_inst :
    (userCreate emptyDoc "alice" "pw").2 = ApiOut.ok "alice" ∧
    userCreate (userCreate emptyDoc "alice" "pw").1 "alice" "pw2" =
      ((userCreate emptyDoc "alice" "pw").1,
        ApiOut.err 400 "User already exists") :=
  userCreate_twice_already_exists emptyDoc "alice" "pw" "pw2"
    (by decide) (by decide) (by decide) (by simp [emptyDoc])

/-- C5: category Create rejects with status 400 every color string not
matching the regex `^#[0-9A-Fa-f]\x7b6\x7d$` (the source predicate agrees
with the spec reading of the regex; "red", "#fff", "#GGGGGG" are rejected),
and accepts every string matching it ("#1a2B3c" accepted). -/
theorem categoryCreate_color_validation (disk : Doc)
    (name color owner : String) (hn : name ≠ "") (ho : owner ≠ "") :
    isValidHex color = matchesHexColorSpec color ∧
    isValidHex "red" = false ∧
    isValidHex "#fff" = false ∧
    isValidHex "#GGGGGG" = false ∧
    isValidHex "#1a2B3c" = true ∧
    (isValidHex color = false →
      categoryCreate disk name color owner =
        (disk, ApiOut.err 400 "Not a valid hex color")) ∧
    (isValidHex color = true →
      (categoryCreate disk name color owner).2 =
        ApiOut.ok ((disk.category.getD []).foldl
          (fun m x => max m x.id) 0 + 1)) := by
  have hn2 : (name == "") = false := by simp [hn]
  have ho2 : (owner == "") = false := by simp [ho]
  refine ⟨isValidHex_eq_spec color, by decide, by decide, by decide,
    by decide, ?_, ?_⟩
  · intro hcol
    simp [categoryCreate, hn2, hcol]
  · intro hcol
    simp [categoryCreate, hn2, hcol, ho2, mutateDoc, categoryCreateFn]

/-- Witness for C5: a rejected and an accepted concrete color. -/
theorem categoryCreate_color_validation_inst :
    isValidHex "#1a2B3c" = matchesHexColorSpec "#1a2B3c" ∧
    categoryCreate emptyDoc "n" "red" "u" =
      (emptyDoc, ApiOut.err 400 "Not a valid hex color") ∧
    (categoryCreate emptyDoc "n" "#1a2B3c" "u").2 =
      ApiOut.ok ((emptyDoc.category.getD []).foldl
        (fun m x => max m x.id) 0 + 1) := by
  refine ⟨(categoryCreate_color_validation emptyDoc "n" "#1a2B3c" "u"
      (by decide) (by decide)).1, ?_, ?_⟩
  · exact (categoryCreate_color_validation emptyDoc "n" "red" "u"
      (by decide) (by decide)).2.2.2.2.2.1 (by decide)
  · exact (categoryCreate_color_validation emptyDoc "n" "#1a2B3c" "u"
      (by decide) (by decide)).2.2.2.2.2.2 (by decide)

/-- C7: given both arguments, category Get responds 400 "id must be an
integer" exactly when the id does not parse as an integer, and 404 exactly
when the id parses but no category matches both the parsed id and the
owner. -/
theorem categoryGet_error_statuses (disk : Doc) (id owner : String)
    (hid : id ≠ "") (how : owner ≠ "") :
    (categoryGet disk id owner = ApiOut.err 400 "id must be an integer" ↔
      parseIntBase10 id = none) ∧
    ∀ n : Int, parseIntBase10 id = some n →
      (categoryGet disk id owner = ApiOut.err 404 "Category not found" ↔
        (disk.category.getD []).find?
          (fun c => (c.id == n) && (c.user == owner)) = none) := by
  have hid2 : (id == "") = false := by simp [hid]
  have how2 : (owner == "") = false := by simp [how]
  cases hp : parseIntBase10 id with
  | none =>
    constructor
    · simp [categoryGet, hid2, how2, hp]
    · intro n hn
      simp at hn
  | some m =>
    constructor
    · cases hf : (disk.category.getD []).find?
          (fun c => (c.id == m) && (c.user == owner)) with
      | none => simp [categoryGet, hid2, how2, hp, hf]
      | some c => simp [categoryGet, hid2, how2, hp, hf]
    · intro n hn
      injection hn with hmn
      subst hmn
      cases hf : (disk.category.getD []).find?
          (fun c => (c.id == m) && (c.user == owner)) with
      | none => simp [categoryGet, hid2, how2, hp, hf]
      | some c => simp [categoryGet, hid2, how2, hp, hf]

/-- Witness for C7: a non-numeric id yields 400, a numeric id with no match
yields 404. -/
theorem categoryGet_error_statuses_inst :
    categoryGet twoEmptyDoc "abc" "bob" =
      ApiOut.err 400 "id must be an integer" ∧
    categoryGet twoEmptyDoc "7" "bob" =
      ApiOut.err 404 "Category not found" := by
  constructor
  · exact (categoryGet_error_statuses twoEmptyDoc "abc" "bob"
      (by decide) (by decide)).1.mpr (by decide)
  · exact ((categoryGet_error_statuses twoEmptyDoc "7" "bob"
      (by decide) (by decide)).2 7 (by decide)).mpr (by decide)

/-- C9: category List returns exactly the categories whose user field equals
the owner, in store order (its result is the in-order filter of the
collection: an order-preserving sublist containing precisely the matching
records), and an absent collection yields the empty list with success. -/
theorem categoryList_filters_by_owner (disk : Doc) (owner : String)
    (ho : owner ≠ "") :
    categoryList disk owner =
      ApiOut.ok ((disk.category.getD []).filter (fun c => c.user == owner)) ∧
    ((disk.category.getD []).filter (fun c => c.user == owner)).Sublist
      (disk.category.getD []) ∧
    (∀ c ∈ (disk.category.getD []).filter (fun c => c.user == owner),
      c.user = owner) ∧
    (∀ c ∈ disk.category.getD [], c.user = owner →
      c ∈ (disk.category.getD []).filter (fun c => c.user == owner)) ∧
    (disk.category = none → categoryList disk owner = ApiOut.ok []) := by
  have ho2 : (owner == "") = false := by simp [ho]
  refine ⟨by simp [categoryList, ho2], List.filter_sublist _, ?_, ?_, ?_⟩
  · intro c hc
    simpa using (List.mem_filter.mp hc).2
  · intro c hc hcu
    exact List.mem_filter.mpr ⟨hc, by simp [hcu]⟩
  · intro h
    simp [categoryList, ho2, h]

/-- Witness for C9: listing alice's categories in the one-category store
returns exactly that category. -/
theorem categoryList_filters_by_owner_inst :
    categoryList oneCatDoc "alice" = ApiOut.ok [aliceCat1] := by
  have h := (categoryList_filters_by_owner oneCatDoc "alice" (by decide)).1
  rw [h]
  decide

/-- C2 (amended): the load-only operations (user get, user verify, category
get) respond with status 404 when no matching record exists, but the
operations that detect the missing record inside a store mutation (user
update, user delete, category update, category delete) throw a domain error
that the handler's catch block renders with status 400 — in particular
DELETE /user/delete on an absent username returns 400, not 404. -/
theorem notFound_status_by_endpoint (disk : Doc)
    (u p pOld pNew id name color owner : String) (n : Int)
    (hu : u ≠ "") (hp : p ≠ "") (hpo : pOld ≠ "") (hpn : pNew ≠ "")
    (hid : id ≠ "") (hname : name ≠ "") (hcol : isValidHex color = true)
    (how : owner ≠ "") (hn0 : n ≠ 0)
    (hparse : parseIntBase10 id = some n)
    (husers : ∀ v ∈ disk.user.getD [], v.username ≠ u)
    (hcats : ∀ c ∈ disk.category.getD [], ¬(c.id = n ∧ c.user = owner)) :
    userGet disk u = ApiOut.err 404 "User not found" ∧
    (disk.user = none →
      userVerify disk u p = ApiOut.err 404 "No users found") ∧
    (disk.user.isSome = true →
      userVerify disk u p = ApiOut.err 404 "User not found") ∧
    categoryGet disk id owner = ApiOut.err 404 "Category not found" ∧
    userDelete disk u = (disk, ApiOut.err 400 "User not found") ∧
    userUpdate disk u pOld pNew =
      (disk, ApiOut.err 400 "User not found") ∧
    categoryUpdate disk n name color owner =
      (disk, ApiOut.err 400 "Category not found") ∧
    categoryDelete disk id owner =
      (disk, ApiOut.err 400 "Category not found") := by
  have hu2 : (u == "") = false := by simp [hu]
  have hpb : (p == "") = false := by simp [hp]
  have hpob : (pOld == "") = false := by simp [hpo]
  have hpnb : (pNew == "") = false := by simp [hpn]
  have hid2 : (id == "") = false := by simp [hid]
  have hname2 : (name == "") = false := by simp [hname]
  have how2 : (owner == "") = false := by simp [how]
  have hn02 : (n == 0) = false := by simp [hn0]
  have hfindU : (disk.user.getD []).find? (fun v => v.username == u) = none :=
    List.find?_eq_none.mpr (fun x hx => by simpa using husers x hx)
  have hidxU : (disk.user.getD []).findIdx?
      (fun v => v.username == u) = none :=
    List.findIdx?_eq_none_iff.mpr (fun x hx => by simpa using husers x hx)
  have hfindC : (disk.category.getD []).find?
      (fun c => (c.id == n) && (c.user == owner)) = none :=
    List.find?_eq_none.mpr (fun x hx => by simpa using hcats x hx)
  have hidxC : (disk.category.getD []).findIdx?
      (fun c => (c.id == n) && (c.user == owner)) = none :=
    List.findIdx?_eq_none_iff.mpr (fun x hx => by simpa using hcats x hx)
  refine ⟨?_, ?_, ?_, ?_, ?_, ?_, ?_, ?_⟩
  · simp [userGet, hu2, hfindU]
  · intro h
    simp [userVerify, hu2, hpb, h]
  · intro h
    cases hdu : disk.user with
    | none => rw [hdu] at h; simp at h
    | some l =>
      have hl : l.find? (fun v => v.username == u) = none := by
        rw [hdu] at hfindU
        simpa using hfindU
      simp [userVerify, hu2, hpb, hdu, hl]
  · simp [categoryGet, hid2, how2, hparse, hfindC]
  · have hfn : userDeleteFn u disk = Except.error "User not found" := by
      simp [userDeleteFn, hidxU]
    simp [userDelete, hu2, mutateDoc_error _ _ _ hfn]
  · have hfn : userUpdateFn u pOld pNew disk =
        Except.error "User not found" := by
      simp [userUpdateFn, hfindU]
    simp [userUpdate, hu2, hpob, hpnb, mutateDoc_error _ _ _ hfn]
  · have hfn : categoryUpdateFn n name color owner disk =
        Except.error "Category not found" := by
      simp [categoryUpdateFn, hfindC]
    simp [categoryUpdate, hn02, hname2, hcol, how2,
      mutateDoc_error _ _ _ hfn]
  · have hfn : categoryDeleteFn id owner disk =
        Except.error "Category not found" := by
      simp [categoryDeleteFn, hparse, hidxC]
    simp [categoryDelete, hid2, how2, mutateDoc_error _ _ _ hfn]

/-- Witness for the amended C2 on a store with both collections empty. -/
theorem notFound_status_by_endpoint_inst :
    userGet twoEmptyDoc "bob" = ApiOut.err 404 "User not found" ∧
    userVerify twoEmptyDoc "bob" "pw" = ApiOut.err 404 "User not found" ∧
    categoryGet twoEmptyDoc "7" "bob" =
      ApiOut.err 404 "Category not found" ∧
    userDelete twoEmptyDoc "bob" =
      (twoEmptyDoc, ApiOut.err 400 "User not found") ∧
    userUpdate twoEmptyDoc "bob" "a" "b" =
      (twoEmptyDoc, ApiOut.err 400 "User not found") ∧
    categoryUpdate twoEmptyDoc 7 "nm" "#012345" "bob" =
      (twoEmptyDoc, ApiOut.err 400 "Category not found") ∧
    categoryDelete twoEmptyDoc "7" "bob" =
      (twoEmptyDoc, ApiOut.err 400 "Category not found") := by
  have h := notFound_status_by_endpoint twoEmptyDoc
    "bob" "pw" "a" "b" "7" "nm" "#012345" "bob" 7
    (by decide) (by decide) (by decide) (by decide) (by decide) (by decide)
    (by decide) (by decide) (by decide) (by decide)
    (by simp [twoEmptyDoc]) (by simp [twoEmptyDoc])
  exact ⟨h.1, h.2.2.1 (by simp [twoEmptyDoc]), h.2.2.2.1, h.2.2.2.2.1,
    h.2.2.2.2.2.1, h.2.2.2.2.2.2.1, h.2.2.2.2.2.2.2⟩

/-- C10: every user-repository operation leaves the category collection of
the persisted document unchanged, and every category-repository operation
leaves the user collection unchanged, on every store state and input
(including the failure branches, which keep the whole document). -/
theorem cross_collection_frame (disk : Doc)
    (u p pOld pNew nm col ow idS : String) (idN : Int) :
    ((userCreate disk u p).1).category = disk.category ∧
    ((userUpdate disk u pOld pNew).1).category = disk.category ∧
    ((userDelete disk u).1).category = disk.category ∧
    ((categoryCreate disk nm col ow).1).user = disk.user ∧
    ((categoryUpdate disk idN nm col ow).1).user = disk.user ∧
    ((categoryDelete disk idS ow).1).user = disk.user := by
  refine ⟨?_, ?_, ?_, ?_, ?_, ?_⟩
  · rcases userCreate_fst disk u p with h | h
    · rw [h]
    · rw [h]
      exact mutateDoc_fst_category disk _
        (fun d1 a hh => userCreateFn_ok_category u p disk d1 a hh)
  · rcases userUpdate_fst disk u pOld pNew with h | h
    · rw [h]
    · rw [h]
      exact mutateDoc_fst_category disk _
        (fun d1 a hh => userUpdateFn_ok_category u pOld pNew disk d1 a hh)
  · rcases userDelete_fst disk u with h | h
    · rw [h]
    · rw [h]
      exact mutateDoc_fst_category disk _
        (fun d1 a hh => userDeleteFn_ok_category u disk d1 a hh)
  · rcases categoryCreate_fst disk nm col ow with h | h
    · rw [h]
    · rw [h]
      exact mutateDoc_fst_user disk _
        (fun d1 a hh => categoryCreateFn_ok_user nm col ow disk d1 a hh)
  · rcases categoryUpdate_fst disk idN nm col ow with h | h
    · rw [h]
    · rw [h]
      exact mutateDoc_fst_user disk _
        (fun d1 a hh => categoryUpdateFn_ok_user idN nm col ow disk d1 a hh)
  · rcases categoryDelete_fst disk idS ow with h | h
    · rw [h]
    · rw [h]
      exact mutateDoc_fst_user disk _
        (fun d1 a hh => categoryDeleteFn_ok_user idS ow disk d1 a hh)

end NoteManager
